import Mathlib

/-!
Verification of the dependency classifier of the Cargo easyblock
(`generate_crate_list` in `easybuild/easyblocks/generic/cargo.py`) and of its
standalone rendering path (the `__main__` block of the same file).

The classifier reads a parsed package descriptor (`Cargo.toml`) and a parsed
lock manifest (`Cargo.lock`).  We embed the parsed structures directly:
mapping keys that may be absent become `Option` fields, the `KeyError`
raised by Python on a missing required key becomes a `SchemaError` value in
an `Except` result, and the imperative loop over lock entries becomes the
tail-recursive `crateLoop`, whose accumulator arguments play the role of the
mutable locals `app_in_cratesio`, `crates` and `other_crates`.
-/

/-- The registry marker recognised by the classifier: the literal string
compared against each lock entry's `source` field
(line 200 of `cargo.py`). -/
def REGISTRY_SOURCE : String := "registry+https://github.com/rust-lang/crates.io-index"

/-- One element of the `package` array of a parsed `Cargo.lock`.  The keys
`name` and `version` are required by the classifier (accessing them raises
`KeyError` when absent, hence `Option` here), `source` is genuinely
optional (`'source' in dep`). -/
structure LockEntry where
  name : Option String
  version : Option String
  source : Option String
  deriving DecidableEq, Repr

/-- The `package` table of a parsed `Cargo.toml`; its `name` key is required
by the classifier but may be absent in the file. -/
structure PackageTable where
  name : Option String
  deriving DecidableEq, Repr

/-- A parsed `Cargo.toml`, restricted to the keys the classifier reads. -/
structure CargoToml where
  package : Option PackageTable
  deriving DecidableEq, Repr

/-- A parsed `Cargo.lock`, restricted to the keys the classifier reads. -/
structure CargoLock where
  package : Option (List LockEntry)
  deriving DecidableEq, Repr

/-- The missing-required-key failures of the classifier; each constructor
corresponds to one `KeyError` site in `generate_crate_list`. -/
inductive SchemaError where
  | missingPackageTable
  | missingPackageName
  | missingLockPackage
  | missingEntryName
  | missingEntryVersion
  deriving DecidableEq, Repr

/-- The classification result: `app_in_cratesio` flag, registry crates and
other crates, exactly the triple returned at line 207 of `cargo.py`. -/
abbrev CrateResult := Bool × List (String × String) × List (String × String)

/-- The `for dep in deps` loop of `generate_crate_list` (lines 197-206).
`appIn`, `crates` and `other` are the values of the mutable locals
`app_in_cratesio`, `crates` and `other_crates` on entry to the iteration;
`dep['name']` and `dep['version']` are read first (raising on absence), then
the entry is routed on its `source` field. -/
def crateLoop (appName : String) (deps : List LockEntry)
    (appIn : Bool) (crates other : List (String × String)) :
    Except SchemaError CrateResult :=
  match deps with
  | [] => .ok (appIn, crates, other)
  | dep :: rest =>
    match dep.name with
    | none => .error .missingEntryName
    | some name =>
      match dep.version with
      | none => .error .missingEntryVersion
      | some version =>
        if dep.source = some REGISTRY_SOURCE then
          if name = appName then
            crateLoop appName rest true crates other
          else
            crateLoop appName rest appIn (crates ++ [(name, version)]) other
        else
          crateLoop appName rest appIn crates (other ++ [(name, version)])

/-- The classifier `generate_crate_list` (lines 184-207 of `cargo.py`),
starting from the already-parsed manifests: extract
`cargo_toml['package']['name']` and `cargo_lock['package']`, then run the
classification loop with empty accumulators. -/
def generate_crate_list (cargo_toml : CargoToml) (cargo_lock : CargoLock) :
    Except SchemaError CrateResult :=
  match cargo_toml.package with
  | none => .error .missingPackageTable
  | some pkg =>
    match pkg.name with
    | none => .error .missingPackageName
    | some appName =>
      match cargo_lock.package with
      | none => .error .missingLockPackage
      | some deps => crateLoop appName deps false [] []

/-- Specification-side predicate: a lock entry that matches the package
itself, i.e. registry-sourced and named like the package (the entry excluded
by lines 201-202). -/
def isSelfDep (appName : String) (d : LockEntry) : Bool :=
  decide (d.source = some REGISTRY_SOURCE ∧ d.name = some appName)

/-- Specification-side list: the (name, version) pairs of the registry-sourced
entries not naming the package itself, in lock order. -/
def registryPairs (appName : String) (deps : List LockEntry) : List (String × String) :=
  deps.filterMap fun d =>
    match d.name, d.version with
    | some n, some v =>
      if d.source = some REGISTRY_SOURCE ∧ ¬n = appName then some (n, v) else none
    | _, _ => none

/-- Specification-side list: the (name, version) pairs of the entries whose
`source` is absent or differs from the registry marker, in lock order. -/
def otherPairs (deps : List LockEntry) : List (String × String) :=
  deps.filterMap fun d =>
    match d.name, d.version with
    | some n, some v =>
      if d.source = some REGISTRY_SOURCE then none else some (n, v)
    | _, _ => none

/-- Specification-side list: the (name, version) pairs of all lock entries
carrying both keys, in lock order. -/
def allPairs (deps : List LockEntry) : List (String × String) :=
  deps.filterMap fun d =>
    match d.name, d.version with
    | some n, some v => some (n, v)
    | _, _ => none

/-- Concrete descriptor used by the worked scenario of the specification:
a `Cargo.toml` naming the package `foo`. -/
def fooToml : CargoToml := ⟨some ⟨some "foo"⟩⟩

/-- Concrete lock entries of the worked scenario of the specification. -/
def fooLockEntries : List LockEntry :=
  [⟨some "foo", some "1.0", some REGISTRY_SOURCE⟩,
   ⟨some "bar", some "2.0", some REGISTRY_SOURCE⟩,
   ⟨some "baz", some "0.1", none⟩]

/-- Concrete lock manifest of the worked scenario of the specification. -/
def fooLock : CargoLock := ⟨some fooLockEntries⟩

/-- Concrete lock entries with a duplicated dependency (`bar 1.0` twice) and
two registry-sourced entries named like the package (`foo 1.0` and
`foo 2.0`). -/
def dupLockEntries : List LockEntry :=
  [⟨some "foo", some "1.0", some REGISTRY_SOURCE⟩,
   ⟨some "foo", some "2.0", some REGISTRY_SOURCE⟩,
   ⟨some "bar", some "1.0", some REGISTRY_SOURCE⟩,
   ⟨some "bar", some "1.0", some REGISTRY_SOURCE⟩,
   ⟨some "baz", some "0.1", none⟩]

/-- Concrete lock manifest built from `dupLockEntries`. -/
def dupLock : CargoLock := ⟨some dupLockEntries⟩

/-- One printed line of the standalone utility for a crate pair:
`    ('name', 'version'),` (line 218 of `cargo.py`). -/
def crateLine (name version : String) : String :=
  "    (\x27" ++ name ++ "\x27, \x27" ++ version ++ "\x27),"

/-- The lines printed by the `__main__` block (lines 212-219 of `cargo.py`)
for a classification result: nothing unless the flag is set or the registry
list is non-empty; otherwise a header, a placeholder line when the flag is
set, one line per registry pair in order, and a closing bracket. -/
def render_crates (app_in : Bool) (crates : List (String × String)) : List String :=
  if app_in || !crates.isEmpty then
    ["crates = ["] ++
      (if app_in then ["    (name, version),"] else []) ++
      crates.map (fun p => crateLine p.1 p.2) ++
      ["]"]
  else []

/-- The standalone utility as a function from parsed manifests to printed
lines: it destructures the classifier result as
`app_in_cratesio, crates, _` — the third component is discarded — and
renders only the first two. -/
def main_output (cargo_toml : CargoToml) (cargo_lock : CargoLock) :
    Except SchemaError (List String) :=
  match generate_crate_list cargo_toml cargo_lock with
  | .error e => .error e
  | .ok (app_in, crates, _) => .ok (render_crates app_in crates)

theorem crateLoop_eq_of_keys (appName : String) :
    ∀ deps : List LockEntry, (∀ d ∈ deps, d.name ≠ none ∧ d.version ≠ none) →
    ∀ (appIn : Bool) (crates other : List (String × String)),
    crateLoop appName deps appIn crates other =
      .ok (appIn || deps.any (isSelfDep appName),
           crates ++ registryPairs appName deps,
           other ++ otherPairs deps) := by
  intro deps
  induction deps with
  | nil => intro _ appIn crates other; simp [crateLoop, registryPairs, otherPairs]
  | cons d rest ih =>
    intro hkeys appIn crates other
    obtain ⟨n, hn⟩ := Option.ne_none_iff_exists'.mp (hkeys d (List.mem_cons_self _ _)).1
    obtain ⟨v, hv⟩ := Option.ne_none_iff_exists'.mp (hkeys d (List.mem_cons_self _ _)).2
    have hrest : ∀ d' ∈ rest, d'.name ≠ none ∧ d'.version ≠ none :=
      fun d' hd' => hkeys d' (List.mem_cons_of_mem _ hd')
    by_cases hs : d.source = some REGISTRY_SOURCE
    · by_cases hna : n = appName
      · simp [crateLoop, registryPairs, otherPairs, isSelfDep, List.filterMap_cons,
              hn, hv, hs, hna, ih hrest]
      · simp [crateLoop, registryPairs, otherPairs, isSelfDep, List.filterMap_cons,
              hn, hv, hs, hna, ih hrest]
    · simp [crateLoop, registryPairs, otherPairs, isSelfDep, List.filterMap_cons,
            hn, hv, hs, ih hrest]

theorem crateLoop_ok_elim (appName : String) :
    ∀ (deps : List LockEntry) (appIn : Bool) (crates other : List (String × String))
      (r : CrateResult),
    crateLoop appName deps appIn crates other = .ok r →
    (∀ d ∈ deps, d.name ≠ none ∧ d.version ≠ none) ∧
    r = (appIn || deps.any (isSelfDep appName),
         crates ++ registryPairs appName deps,
         other ++ otherPairs deps) := by
  intro deps
  induction deps with
  | nil =>
    intro appIn crates other r h
    refine ⟨by simp, ?_⟩
    simp [crateLoop] at h
    simp [registryPairs, otherPairs, ← h]
  | cons d rest ih =>
    intro appIn crates other r h
    cases hn : d.name with
    | none => simp [crateLoop, hn] at h
    | some n =>
      cases hv : d.version with
      | none => simp [crateLoop, hn, hv] at h
      | some v =>
        have step : ∀ (a : Bool) (c o : List (String × String)),
            crateLoop appName rest a c o = .ok r →
            (∀ d' ∈ d :: rest, d'.name ≠ none ∧ d'.version ≠ none) ∧
            r = (a || rest.any (isSelfDep appName),
                 c ++ registryPairs appName rest, o ++ otherPairs rest) := by
          intro a c o hr
          obtain ⟨hk, hres⟩ := ih a c o r hr
          refine ⟨?_, hres⟩
          intro d' hd'
          rcases List.mem_cons.mp hd' with rfl | hd''
          · exact ⟨by simp [hn], by simp [hv]⟩
          · exact hk d' hd''
        by_cases hs : d.source = some REGISTRY_SOURCE
        · by_cases hna : n = appName
          · simp only [crateLoop, hn, hv, hs, hna, if_true, if_pos] at h
            obtain ⟨hk, hres⟩ := step true crates other (by simpa using h)
            refine ⟨hk, ?_⟩
            simp [hres, registryPairs, otherPairs, isSelfDep, List.filterMap_cons,
                  hn, hv, hs, hna]
          · simp only [crateLoop, hn, hv] at h
            rw [if_pos hs, if_neg hna] at h
            obtain ⟨hk, hres⟩ := step appIn (crates ++ [(n, v)]) other h
            refine ⟨hk, ?_⟩
            simp [hres, registryPairs, otherPairs, isSelfDep, List.filterMap_cons,
                  hn, hv, hs, hna]
        · simp only [crateLoop, hn, hv] at h
          rw [if_neg hs] at h
          obtain ⟨hk, hres⟩ := step appIn crates (other ++ [(n, v)]) h
          refine ⟨hk, ?_⟩
          simp [hres, registryPairs, otherPairs, isSelfDep, List.filterMap_cons,
                hn, hv, hs]

theorem crateLoop_error_of_missing (appName : String) :
    ∀ deps : List LockEntry, (∃ d ∈ deps, d.name = none ∨ d.version = none) →
    ∀ (appIn : Bool) (crates other : List (String × String)),
    ∃ e, crateLoop appName deps appIn crates other = .error e := by
  intro deps
  induction deps with
  | nil => rintro ⟨d, hd, _⟩; simp at hd
  | cons d0 rest ih =>
    rintro ⟨d, hd, hbad⟩ appIn crates other
    cases hn : d0.name with
    | none => exact ⟨.missingEntryName, by simp [crateLoop, hn]⟩
    | some n =>
      cases hv : d0.version with
      | none => exact ⟨.missingEntryVersion, by simp [crateLoop, hn, hv]⟩
      | some v =>
        have hdrest : d ∈ rest := by
          rcases List.mem_cons.mp hd with rfl | hmem
          · rcases hbad with hb | hb
            · rw [hn] at hb; exact absurd hb (by simp)
            · rw [hv] at hb; exact absurd hb (by simp)
          · exact hmem
        by_cases hs : d0.source = some REGISTRY_SOURCE
        · by_cases hna : n = appName
          · obtain ⟨e, he⟩ := ih ⟨d, hdrest, hbad⟩ true crates other
            exact ⟨e, by simp [crateLoop, hn, hv, hs, hna, he]⟩
          · obtain ⟨e, he⟩ := ih ⟨d, hdrest, hbad⟩ appIn (crates ++ [(n, v)]) other
            exact ⟨e, by simp [crateLoop, hn, hv, hs, hna, he]⟩
        · obtain ⟨e, he⟩ := ih ⟨d, hdrest, hbad⟩ appIn crates (other ++ [(n, v)])
          exact ⟨e, by simp [crateLoop, hn, hv, hs, he]⟩

theorem generate_eq_crateLoop (cargo_toml : CargoToml) (cargo_lock : CargoLock)
    (appName : String) (deps : List LockEntry)
    (ht : cargo_toml.package = some { name := some appName })
    (hl : cargo_lock.package = some deps) :
    generate_crate_list cargo_toml cargo_lock = crateLoop appName deps false [] [] := by
  simp [generate_crate_list, ht, hl]

theorem partition_length (appName : String) :
    ∀ deps : List LockEntry, (∀ d ∈ deps, d.name ≠ none ∧ d.version ≠ none) →
    (registryPairs appName deps).length + (otherPairs deps).length +
      (deps.filter (isSelfDep appName)).length = deps.length := by
  intro deps
  induction deps with
  | nil => intro _; simp [registryPairs, otherPairs]
  | cons d rest ih =>
    intro hkeys
    obtain ⟨n, hn⟩ := Option.ne_none_iff_exists'.mp (hkeys d (List.mem_cons_self _ _)).1
    obtain ⟨v, hv⟩ := Option.ne_none_iff_exists'.mp (hkeys d (List.mem_cons_self _ _)).2
    have hrest : ∀ d' ∈ rest, d'.name ≠ none ∧ d'.version ≠ none :=
      fun d' hd' => hkeys d' (List.mem_cons_of_mem _ hd')
    by_cases hs : d.source = some REGISTRY_SOURCE
    · by_cases hna : n = appName
      · simp [registryPairs, otherPairs, isSelfDep, List.filterMap_cons, List.filter_cons,
              hn, hv, hs, hna, ← ih hrest] <;> omega
      · simp [registryPairs, otherPairs, isSelfDep, List.filterMap_cons, List.filter_cons,
              hn, hv, hs, hna, ← ih hrest] <;> omega
    · simp [registryPairs, otherPairs, isSelfDep, List.filterMap_cons, List.filter_cons,
            hn, hv, hs, ← ih hrest] <;> omega

theorem filterMap_sublist_of_imp {α β : Type} (f g : α → Option β)
    (h : ∀ x y, f x = some y → g x = some y) :
    ∀ l : List α, List.Sublist (l.filterMap f) (l.filterMap g) := by
  intro l
  induction l with
  | nil => simp
  | cons a l ih =>
    cases hfa : f a with
    | none =>
      cases hga : g a with
      | none => simpa [List.filterMap_cons, hfa, hga] using ih
      | some b =>
        simp only [List.filterMap_cons, hfa, hga]
        exact ih.cons _
    | some b =>
      have hgb := h a b hfa
      simp only [List.filterMap_cons, hfa, hgb]
      exact ih.cons₂ _

theorem filterMap_filter_of_none {α β : Type} (p : α → Bool) (f : α → Option β)
    (h : ∀ x, p x = false → f x = none) :
    ∀ l : List α, (l.filter p).filterMap f = l.filterMap f := by
  intro l
  induction l with
  | nil => rfl
  | cons a l ih =>
    cases hp : p a with
    | true => simp [List.filter_cons, hp, List.filterMap_cons, ih]
    | false => simp [List.filter_cons, hp, List.filterMap_cons, h a hp, ih]

theorem any_eq_true_iff_filter_pos {α : Type} (p : α → Bool) (l : List α) :
    l.any p = true ↔ 0 < (l.filter p).length := by
  constructor
  · intro h
    obtain ⟨x, hx, hpx⟩ := List.any_eq_true.mp h
    exact List.length_pos.mpr (List.ne_nil_of_mem (List.mem_filter.mpr ⟨hx, hpx⟩))
  · intro h
    obtain ⟨x, hx⟩ := List.exists_mem_of_ne_nil _ (List.length_pos.mp h)
    obtain ⟨hxl, hpx⟩ := List.mem_filter.mp hx
    exact List.any_eq_true.mpr ⟨x, hxl, hpx⟩

/-- C5: on the scenario input (package `foo`; lock entries `foo 1.0` from the
registry, `bar 2.0` from the registry, `baz 0.1` without a source),
`generate_crate_list` returns the triple
`(true, [("bar", "2.0")], [("baz", "0.1")])`. -/
theorem C5_scenario :
    generate_crate_list fooToml fooLock =
      .ok (true, [("bar", "2.0")], [("baz", "0.1")]) := by rfl

/-- C8: `generate_crate_list` is deterministic and free of side effects on its
inputs.  The embedding is a pure function of the two parsed manifests, exactly
mirroring the source, which reads `cargo_toml` and `cargo_lock` and only ever
appends to its own fresh local lists; hence two invocations on the same parsed
contents are one and the same value and the arguments are untouched. -/
theorem C8_deterministic (cargo_toml : CargoToml) (cargo_lock : CargoLock) :
    generate_crate_list cargo_toml cargo_lock =
      generate_crate_list cargo_toml cargo_lock := rfl

/-- C1 counterexample: with package `foo` and two registry-sourced lock
entries both named `foo` (versions `1.0` and `2.0`), both entries are
excluded as self-references, so the result is `(true, [], [])` and
`|registryCrates| + |otherCrates| + 1 = 1`, not the total entry count `2`. -/
theorem C1_counterexample :
    generate_crate_list ⟨some ⟨some "foo"⟩⟩
      ⟨some [⟨some "foo", some "1.0", some REGISTRY_SOURCE⟩,
             ⟨some "foo", some "2.0", some REGISTRY_SOURCE⟩]⟩ =
      .ok (true, [], []) ∧
    ¬(([] : List (String × String)).length + ([] : List (String × String)).length
        + 1 = 2) :=
  ⟨by rfl, by decide⟩

/-- C1 (amended): for every well-formed descriptor and lock list,
`|registryCrates| + |otherCrates|` plus the number of lock entries that match
the package itself (registry-sourced and named like the package) equals the
total number of lock entries; when at most one entry matches the package
itself, this is exactly the original formula
`|registryCrates| + |otherCrates| + (1 if selfInRegistry else 0) = total`. -/
theorem C1_count_partition (cargo_toml : CargoToml) (cargo_lock : CargoLock)
    (appName : String) (deps : List LockEntry) (r : CrateResult)
    (ht : cargo_toml.package = some { name := some appName })
    (hl : cargo_lock.package = some deps)
    (hok : generate_crate_list cargo_toml cargo_lock = .ok r) :
    r.2.1.length + r.2.2.length + (deps.filter (isSelfDep appName)).length
        = deps.length ∧
    ((deps.filter (isSelfDep appName)).length ≤ 1 →
      r.2.1.length + r.2.2.length + (if r.1 = true then 1 else 0) = deps.length) := by
  rw [generate_eq_crateLoop cargo_toml cargo_lock appName deps ht hl] at hok
  obtain ⟨hkeys, hres⟩ := crateLoop_ok_elim appName deps false [] [] r hok
  subst hres
  have hpart := partition_length appName deps hkeys
  constructor
  · simpa using hpart
  · intro hle
    have hiff := any_eq_true_iff_filter_pos (isSelfDep appName) deps
    show (registryPairs appName deps).length + (otherPairs deps).length +
        (if (false || deps.any (isSelfDep appName)) = true then 1 else 0) = deps.length
    cases hany : deps.any (isSelfDep appName) with
    | false =>
      have hk0 : (deps.filter (isSelfDep appName)).length = 0 := by
        by_contra hne
        rw [hiff.mpr (Nat.pos_of_ne_zero hne)] at hany
        exact Bool.noConfusion hany
      show (registryPairs appName deps).length + (otherPairs deps).length + 0 = deps.length
      omega
    | true =>
      have hk : 0 < (deps.filter (isSelfDep appName)).length := hiff.mp hany
      show (registryPairs appName deps).length + (otherPairs deps).length + 1 = deps.length
      omega

/-- C1 witness: the amended count partition instantiated on the worked
scenario input, where exactly one lock entry matches the package itself. -/
theorem C1_count_partition_witness :
    (([("bar", "2.0")] : List (String × String)).length +
        ([("baz", "0.1")] : List (String × String)).length +
        (fooLockEntries.filter (isSelfDep "foo")).length = fooLockEntries.length) ∧
    ((fooLockEntries.filter (isSelfDep "foo")).length ≤ 1 →
      ([("bar", "2.0")] : List (String × String)).length +
        ([("baz", "0.1")] : List (String × String)).length +
        (if (true : Bool) = true then 1 else 0) = fooLockEntries.length) :=
  C1_count_partition fooToml fooLock "foo" fooLockEntries
    (true, [("bar", "2.0")], [("baz", "0.1")]) rfl rfl rfl

/-- C2: every lock entry named like the package and carrying the registry
marker as `source` contributes to neither `registryCrates` nor `otherCrates`
(dropping all such entries from the lock list leaves both output lists
unchanged), and `selfInRegistry` is true whenever such an entry exists. -/
theorem C2_self_exclusion (cargo_toml : CargoToml) (cargo_lock : CargoLock)
    (appName : String) (deps : List LockEntry) (r : CrateResult)
    (ht : cargo_toml.package = some { name := some appName })
    (hl : cargo_lock.package = some deps)
    (hok : generate_crate_list cargo_toml cargo_lock = .ok r) :
    ((∃ d ∈ deps, d.name = some appName ∧ d.source = some REGISTRY_SOURCE) →
      r.1 = true) ∧
    crateLoop appName (deps.filter (fun d => !isSelfDep appName d)) false [] [] =
      .ok (false, r.2.1, r.2.2) := by
  rw [generate_eq_crateLoop cargo_toml cargo_lock appName deps ht hl] at hok
  obtain ⟨hkeys, hres⟩ := crateLoop_ok_elim appName deps false [] [] r hok
  subst hres
  constructor
  · rintro ⟨d, hd, hdname, hdsrc⟩
    have hself : isSelfDep appName d = true := by simp [isSelfDep, hdname, hdsrc]
    show (false || deps.any (isSelfDep appName)) = true
    simp only [Bool.false_or, List.any_eq_true]
    exact ⟨d, hd, hself⟩
  · have hkeysF : ∀ d ∈ deps.filter (fun d => !isSelfDep appName d),
        d.name ≠ none ∧ d.version ≠ none :=
      fun d hd => hkeys d (List.mem_of_mem_filter hd)
    rw [crateLoop_eq_of_keys appName _ hkeysF false [] []]
    have hanyF : (deps.filter (fun d => !isSelfDep appName d)).any
        (isSelfDep appName) = false := by
      cases hx : (deps.filter (fun d => !isSelfDep appName d)).any
          (isSelfDep appName) with
      | false => rfl
      | true =>
        obtain ⟨x, hxmem, hxp⟩ := List.any_eq_true.mp hx
        have hneg := (List.mem_filter.mp hxmem).2
        rw [hxp] at hneg
        simp at hneg
    have hrpF : registryPairs appName (deps.filter (fun d => !isSelfDep appName d)) =
        registryPairs appName deps := by
      unfold registryPairs
      refine filterMap_filter_of_none _ _ ?_ deps
      intro d hb
      have hself : isSelfDep appName d = true := by
        cases hx : isSelfDep appName d with
        | true => rfl
        | false => rw [hx] at hb; simp at hb
      have hprop : d.source = some REGISTRY_SOURCE ∧ d.name = some appName := by
        simpa [isSelfDep] using hself
      cases hdv : d.version with
      | none => simp [hprop.2, hdv]
      | some v => simp [hprop.2, hdv]
    have hopF : otherPairs (deps.filter (fun d => !isSelfDep appName d)) =
        otherPairs deps := by
      unfold otherPairs
      refine filterMap_filter_of_none _ _ ?_ deps
      intro d hb
      have hself : isSelfDep appName d = true := by
        cases hx : isSelfDep appName d with
        | true => rfl
        | false => rw [hx] at hb; simp at hb
      have hprop : d.source = some REGISTRY_SOURCE ∧ d.name = some appName := by
        simpa [isSelfDep] using hself
      cases hdv : d.version with
      | none => simp [hprop.1, hprop.2, hdv]
      | some v => simp [hprop.1, hprop.2, hdv]
    simp [hanyF, hrpF, hopF]

/-- C2 witness: the self-exclusion property instantiated on the worked
scenario input, whose first lock entry is the package itself. -/
theorem C2_self_exclusion_witness :
    ((∃ d ∈ fooLockEntries,
        d.name = some "foo" ∧ d.source = some REGISTRY_SOURCE) →
      (true : Bool) = true) ∧
    crateLoop "foo" (fooLockEntries.filter (fun d => !isSelfDep "foo" d))
        false [] [] =
      .ok (false, [("bar", "2.0")], [("baz", "0.1")]) :=
  C2_self_exclusion fooToml fooLock "foo" fooLockEntries
    (true, [("bar", "2.0")], [("baz", "0.1")]) rfl rfl rfl

/-- C3: a lock entry whose name `n` differs from the package name contributes
its `(n, v)` pair to `registryCrates` precisely when its `source` field equals
the literal registry marker, and to `otherCrates` otherwise; an absent
`source` (`src = none`) takes the same `otherCrates` route as any
non-matching value, since the test is only `src = some REGISTRY_SOURCE`. -/
theorem C3_registry_marker (cargo_toml : CargoToml) (cargo_lock : CargoLock)
    (appName n v : String) (src : Option String) (pre post : List LockEntry)
    (r : CrateResult)
    (hname : ¬n = appName)
    (ht : cargo_toml.package = some { name := some appName })
    (hl : cargo_lock.package = some (pre ++ ⟨some n, some v, src⟩ :: post))
    (hok : generate_crate_list cargo_toml cargo_lock = .ok r) :
    r.2.1 = registryPairs appName pre ++
        (if src = some REGISTRY_SOURCE then [(n, v)] else []) ++
        registryPairs appName post ∧
    r.2.2 = otherPairs pre ++
        (if src = some REGISTRY_SOURCE then [] else [(n, v)]) ++
        otherPairs post := by
  rw [generate_eq_crateLoop cargo_toml cargo_lock appName _ ht hl] at hok
  obtain ⟨hkeys, hres⟩ := crateLoop_ok_elim appName _ false [] [] r hok
  subst hres
  constructor
  · by_cases hs : src = some REGISTRY_SOURCE
    · simp [registryPairs, List.filterMap_append, List.filterMap_cons, hs, hname]
    · simp [registryPairs, List.filterMap_append, List.filterMap_cons, hs, hname]
  · by_cases hs : src = some REGISTRY_SOURCE
    · simp [otherPairs, List.filterMap_append, List.filterMap_cons, hs]
    · simp [otherPairs, List.filterMap_append, List.filterMap_cons, hs]

/-- C3 witness: the routing property instantiated on the worked scenario,
with the registry-sourced entry `bar 2.0` as the distinguished entry. -/
theorem C3_registry_marker_witness :
    ([("bar", "2.0")] : List (String × String)) =
      registryPairs "foo" [⟨some "foo", some "1.0", some REGISTRY_SOURCE⟩] ++
        (if (some REGISTRY_SOURCE : Option String) = some REGISTRY_SOURCE then
          [("bar", "2.0")] else []) ++
        registryPairs "foo" [⟨some "baz", some "0.1", none⟩] ∧
    ([("baz", "0.1")] : List (String × String)) =
      otherPairs [⟨some "foo", some "1.0", some REGISTRY_SOURCE⟩] ++
        (if (some REGISTRY_SOURCE : Option String) = some REGISTRY_SOURCE then
          [] else [("bar", "2.0")]) ++
        otherPairs [⟨some "baz", some "0.1", none⟩] :=
  C3_registry_marker fooToml fooLock "foo" "bar" "2.0" (some REGISTRY_SOURCE)
    [⟨some "foo", some "1.0", some REGISTRY_SOURCE⟩]
    [⟨some "baz", some "0.1", none⟩]
    (true, [("bar", "2.0")], [("baz", "0.1")]) (by decide) rfl rfl rfl

/-- C4: `registryCrates` and `otherCrates` are in-order subsequences of the
(name, version) pairs of the lock list: the relative order inside each output
matches the order of appearance of the entries in the lock list. -/
theorem C4_order_preservation (cargo_toml : CargoToml) (cargo_lock : CargoLock)
    (appName : String) (deps : List LockEntry) (r : CrateResult)
    (ht : cargo_toml.package = some { name := some appName })
    (hl : cargo_lock.package = some deps)
    (hok : generate_crate_list cargo_toml cargo_lock = .ok r) :
    List.Sublist r.2.1 (allPairs deps) ∧ List.Sublist r.2.2 (allPairs deps) := by
  rw [generate_eq_crateLoop cargo_toml cargo_lock appName deps ht hl] at hok
  obtain ⟨hkeys, hres⟩ := crateLoop_ok_elim appName deps false [] [] r hok
  subst hres
  constructor
  · show List.Sublist ([] ++ registryPairs appName deps) (allPairs deps)
    simp only [List.nil_append]
    unfold registryPairs allPairs
    refine filterMap_sublist_of_imp _ _ ?_ deps
    intro d y hf
    cases hdn : d.name with
    | none => simp [hdn] at hf
    | some n =>
      cases hdv : d.version with
      | none => simp [hdn, hdv] at hf
      | some v =>
        simp only [hdn, hdv] at hf ⊢
        by_cases hc : d.source = some REGISTRY_SOURCE ∧ ¬n = appName
        · rw [if_pos hc] at hf; exact hf
        · rw [if_neg hc] at hf; exact absurd hf (by simp)
  · show List.Sublist ([] ++ otherPairs deps) (allPairs deps)
    simp only [List.nil_append]
    unfold otherPairs allPairs
    refine filterMap_sublist_of_imp _ _ ?_ deps
    intro d y hf
    cases hdn : d.name with
    | none => simp [hdn] at hf
    | some n =>
      cases hdv : d.version with
      | none => simp [hdn, hdv] at hf
      | some v =>
        simp only [hdn, hdv] at hf ⊢
        by_cases hc : d.source = some REGISTRY_SOURCE
        · rw [if_pos hc] at hf; exact absurd hf (by simp)
        · rw [if_neg hc] at hf; exact hf

/-- C4 witness: order preservation instantiated on the worked scenario. -/
theorem C4_order_preservation_witness :
    List.Sublist ([("bar", "2.0")] : List (String × String))
      (allPairs fooLockEntries) ∧
    List.Sublist ([("baz", "0.1")] : List (String × String))
      (allPairs fooLockEntries) :=
  C4_order_preservation fooToml fooLock "foo" fooLockEntries
    (true, [("bar", "2.0")], [("baz", "0.1")]) rfl rfl rfl

/-- C7: `generate_crate_list` fails with a `SchemaError` when a required key
is absent: `package.name` missing from the descriptor (either the `package`
table or its `name` key), or `name`/`version` missing from a lock entry.  The
failure yields no partial result: the `Except` value carries no `ok`
component, mirroring the Python `KeyError` that aborts the call before
anything is returned. -/
theorem C7_schema_error (cargo_toml : CargoToml) (cargo_lock : CargoLock)
    (h : cargo_toml.package = none ∨ cargo_toml.package = some { name := none } ∨
      ∃ deps, cargo_lock.package = some deps ∧
        ∃ d ∈ deps, d.name = none ∨ d.version = none) :
    (generate_crate_list cargo_toml cargo_lock).toOption = none ∧
    ∃ e, generate_crate_list cargo_toml cargo_lock = .error e := by
  have herr : ∃ e, generate_crate_list cargo_toml cargo_lock = .error e := by
    rcases h with h | h | ⟨deps, hl, hbad⟩
    · exact ⟨.missingPackageTable, by simp [generate_crate_list, h]⟩
    · exact ⟨.missingPackageName, by simp [generate_crate_list, h]⟩
    · cases htp : cargo_toml.package with
      | none => exact ⟨.missingPackageTable, by simp [generate_crate_list, htp]⟩
      | some pkg =>
        cases hpn : pkg.name with
        | none => exact ⟨.missingPackageName, by simp [generate_crate_list, htp, hpn]⟩
        | some appName =>
          obtain ⟨e, he⟩ := crateLoop_error_of_missing appName deps hbad false [] []
          exact ⟨e, by simp [generate_crate_list, htp, hpn, hl, he]⟩
  obtain ⟨e, he⟩ := herr
  exact ⟨by simp [he, Except.toOption], e, he⟩

/-- C7 witness: a descriptor with no `package` table makes the classifier
fail with a `SchemaError` and no partial result. -/
theorem C7_schema_error_witness :
    (generate_crate_list ⟨none⟩ ⟨some []⟩).toOption = none ∧
    ∃ e, generate_crate_list ⟨none⟩ ⟨some []⟩ = .error e :=
  C7_schema_error ⟨none⟩ ⟨some []⟩ (Or.inl rfl)

/-- C9: a lock entry named like the package whose `source` is absent or
differs from the registry marker is not excluded: its (name, version) pair is
appended to `otherCrates` at the corresponding position, and such an entry
never makes `selfInRegistry` true — the flag can only come from an entry of
the remaining list that is registry-sourced and named like the package. -/
theorem C9_self_nonregistry (cargo_toml : CargoToml) (cargo_lock : CargoLock)
    (appName v : String) (src : Option String) (pre post : List LockEntry)
    (r : CrateResult)
    (hsrc : ¬src = some REGISTRY_SOURCE)
    (ht : cargo_toml.package = some { name := some appName })
    (hl : cargo_lock.package = some (pre ++ ⟨some appName, some v, src⟩ :: post))
    (hok : generate_crate_list cargo_toml cargo_lock = .ok r) :
    r.2.2 = otherPairs pre ++ (appName, v) :: otherPairs post ∧
    (r.1 = true → ∃ d ∈ pre ++ post,
      d.name = some appName ∧ d.source = some REGISTRY_SOURCE) := by
  rw [generate_eq_crateLoop cargo_toml cargo_lock appName _ ht hl] at hok
  obtain ⟨hkeys, hres⟩ := crateLoop_ok_elim appName _ false [] [] r hok
  subst hres
  constructor
  · show [] ++ otherPairs (pre ++ ⟨some appName, some v, src⟩ :: post) = _
    simp [otherPairs, List.filterMap_append, List.filterMap_cons, hsrc]
  · intro hflag
    have hany : (pre ++ (⟨some appName, some v, src⟩ : LockEntry) :: post).any
        (isSelfDep appName) = true := by
      simpa using hflag
    obtain ⟨d, hd, hp⟩ := List.any_eq_true.mp hany
    have hprop : d.source = some REGISTRY_SOURCE ∧ d.name = some appName := by
      simpa [isSelfDep] using hp
    have hdmem : d ∈ pre ++ post := by
      rcases List.mem_append.mp hd with hmem | hmem
      · exact List.mem_append.mpr (Or.inl hmem)
      · rcases List.mem_cons.mp hmem with rfl | hmem2
        · exact absurd hprop.1 hsrc
        · exact List.mem_append.mpr (Or.inr hmem2)
    exact ⟨d, hdmem, hprop.2, hprop.1⟩

/-- C9 witness: package `foo` with a sourceless lock entry `foo 0.5` followed
by a registry entry `bar 2.0`: the self-named entry lands in `otherCrates`
and the flag stays false. -/
theorem C9_self_nonregistry_witness :
    ([("foo", "0.5")] : List (String × String)) =
      otherPairs [] ++ ("foo", "0.5") ::
        otherPairs [⟨some "bar", some "2.0", some REGISTRY_SOURCE⟩] ∧
    ((false : Bool) = true →
      ∃ d ∈ ([] : List LockEntry) ++
          [(⟨some "bar", some "2.0", some REGISTRY_SOURCE⟩ : LockEntry)],
        d.name = some "foo" ∧ d.source = some REGISTRY_SOURCE) :=
  C9_self_nonregistry ⟨some ⟨some "foo"⟩⟩
    ⟨some [⟨some "foo", some "0.5", none⟩,
           ⟨some "bar", some "2.0", some REGISTRY_SOURCE⟩]⟩
    "foo" "0.5" none [] [⟨some "bar", some "2.0", some REGISTRY_SOURCE⟩]
    (false, [("bar", "2.0")], [("foo", "0.5")]) (by decide) rfl rfl rfl

/-- C10: `generate_crate_list` performs no deduplication: `registryCrates`
and `otherCrates` are exactly the in-order pair lists of the qualifying
entries (so duplicated lock entries yield duplicated pairs with the same
multiplicity), and when two or more registry-sourced entries share the
package's name, all of them are excluded from both lists while
`selfInRegistry` records only the single boolean true. -/
theorem C10_no_dedup (cargo_toml : CargoToml) (cargo_lock : CargoLock)
    (appName : String) (deps : List LockEntry) (r : CrateResult)
    (ht : cargo_toml.package = some { name := some appName })
    (hl : cargo_lock.package = some deps)
    (hok : generate_crate_list cargo_toml cargo_lock = .ok r) :
    (r.2.1 = registryPairs appName deps ∧ r.2.2 = otherPairs deps) ∧
    (2 ≤ (deps.filter (isSelfDep appName)).length →
      r.1 = true ∧
      r.2.1.length + r.2.2.length + (deps.filter (isSelfDep appName)).length
        = deps.length) := by
  rw [generate_eq_crateLoop cargo_toml cargo_lock appName deps ht hl] at hok
  obtain ⟨hkeys, hres⟩ := crateLoop_ok_elim appName deps false [] [] r hok
  subst hres
  refine ⟨⟨by simp, by simp⟩, ?_⟩
  intro h2
  have hpart := partition_length appName deps hkeys
  constructor
  · show (false || deps.any (isSelfDep appName)) = true
    have hany := (any_eq_true_iff_filter_pos (isSelfDep appName) deps).mpr (by omega)
    simp [hany]
  · show ([] ++ registryPairs appName deps).length +
        ([] ++ otherPairs deps).length +
        (deps.filter (isSelfDep appName)).length = deps.length
    simpa using hpart

/-- C10 witness: on `dupLockEntries` both `foo` entries are excluded, the
duplicated `bar 1.0` pair appears twice, and the flag is a single true. -/
theorem C10_no_dedup_witness :
    (([("bar", "1.0"), ("bar", "1.0")] : List (String × String)) =
        registryPairs "foo" dupLockEntries ∧
     ([("baz", "0.1")] : List (String × String)) = otherPairs dupLockEntries) ∧
    ((true : Bool) = true ∧
      ([("bar", "1.0"), ("bar", "1.0")] : List (String × String)).length +
        ([("baz", "0.1")] : List (String × String)).length +
        (dupLockEntries.filter (isSelfDep "foo")).length = dupLockEntries.length) :=
  ⟨(C10_no_dedup fooToml dupLock "foo" dupLockEntries
      (true, [("bar", "1.0"), ("bar", "1.0")], [("baz", "0.1")]) rfl rfl rfl).1,
   (C10_no_dedup fooToml dupLock "foo" dupLockEntries
      (true, [("bar", "1.0"), ("bar", "1.0")], [("baz", "0.1")]) rfl rfl rfl).2
     (by decide)⟩

/-- C6: when the classifier succeeds, the standalone utility prints exactly
`render_crates` of the flag and the registry list — `otherCrates` is
discarded and never rendered; the output is empty iff the flag is false and
the registry list empty; when the flag is true the placeholder line comes
right after the header; when the flag is false and the list non-empty there
is no placeholder, only one line per registry pair in order. -/
theorem C6_standalone_rendering (cargo_toml : CargoToml) (cargo_lock : CargoLock)
    (r : CrateResult)
    (hr : generate_crate_list cargo_toml cargo_lock = .ok r) :
    main_output cargo_toml cargo_lock = .ok (render_crates r.1 r.2.1) ∧
    (render_crates r.1 r.2.1 = [] ↔ (r.1 = false ∧ r.2.1 = [])) ∧
    (r.1 = true →
      render_crates r.1 r.2.1 =
        "crates = [" :: "    (name, version)," ::
          (r.2.1.map (fun p => crateLine p.1 p.2) ++ ["]"])) ∧
    (r.1 = false → ¬r.2.1 = [] →
      render_crates r.1 r.2.1 =
        "crates = [" :: (r.2.1.map (fun p => crateLine p.1 p.2) ++ ["]"])) := by
  obtain ⟨a, c, o⟩ := r
  refine ⟨by simp [main_output, hr], ?_, ?_, ?_⟩
  · cases a <;> cases c <;> simp [render_crates]
  · intro ha
    cases ha
    simp [render_crates]
  · intro ha hc
    cases ha
    cases c with
    | nil => exact absurd rfl hc
    | cons p l => simp [render_crates]

/-- C6 witness: the rendering property instantiated on the worked scenario,
whose result has the flag set and one registry crate. -/
theorem C6_standalone_rendering_witness :
    main_output fooToml fooLock = .ok (render_crates true [("bar", "2.0")]) ∧
    (render_crates true [("bar", "2.0")] = [] ↔
      ((true : Bool) = false ∧ ([("bar", "2.0")] : List (String × String)) = [])) ∧
    ((true : Bool) = true →
      render_crates true [("bar", "2.0")] =
        "crates = [" :: "    (name, version)," ::
          (([("bar", "2.0")] : List (String × String)).map
            (fun p => crateLine p.1 p.2) ++ ["]"])) ∧
    ((true : Bool) = false →
      ¬([("bar", "2.0")] : List (String × String)) = [] →
      render_crates true [("bar", "2.0")] =
        "crates = [" :: (([("bar", "2.0")] : List (String × String)).map
          (fun p => crateLine p.1 p.2) ++ ["]"])) :=
  C6_standalone_rendering fooToml fooLock
    (true, [("bar", "2.0")], [("baz", "0.1")]) rfl
